import Mathlib

/-!
Verification development for the Ore-UI-Customizer-API plugin-environment
declaration package.  The repository ships ambient TypeScript type
declarations only; the type-level utilities are embedded as Lean functions
on lists and strings, and the runtime plugin-environment facade (which the
host application implements) is modelled from the specification.
-/

/-- Embedding of the type-level utility `Split<S>` from the source: splits a
string into the list of its single-character strings, in order. -/
def SplitChars : List Char → List String
  | [] => []
  | c :: r => String.mk [c] :: SplitChars r

/-- Embedding of `Split<S>` on whole strings. -/
def Split (s : String) : List String :=
  SplitChars s.data

/-- Embedding of the type-level utility `Join<T>` from the source: joins a
list of strings into one string by concatenation, in order. -/
def Join : List String → String
  | [] => ""
  | h :: t => h ++ Join t

/-- Embedding of the type-level utility `RemoveFirstNElements<T, N, Removed, Result>`
from the source, with the same accumulator structure: the recursion stops as
soon as the `Removed` accumulator has length `N`, returning the `Result`
accumulator, which is updated to the tail `Rest` on each step. -/
def RemoveFirstNElements (T : List α) (N : Nat) (Removed : List α := []) (Result : List α := []) : List α :=
  if Removed.length = N then Result
  else
    match T with
    | First :: Rest => RemoveFirstNElements Rest N (Removed ++ [First]) Rest
    | [] => Result

/-- Embedding of the type-level utility `RemoveLastNElements<T, N, Removed, Result>`
from the source.  Note that, exactly as in the source, the recursive branch
invokes `RemoveFirstNElements` (not `RemoveLastNElements` itself) on the
tuple with its last element stripped. -/
def RemoveLastNElements (T : List α) (N : Nat) (Removed : List α := []) (Result : List α := []) : List α :=
  if Removed.length = N then Result
  else
    match T.getLast? with
    | some Last => RemoveFirstNElements T.dropLast N (Removed ++ [Last]) T.dropLast
    | none => Result

/-- Embedding of the closed union `OreUICustomizerType = "Website" | "App" | "CLI"`
from the source: an inductive with exactly three constructors. -/
inductive OreUICustomizerType where
  | Website
  | App
  | CLI
deriving DecidableEq

/-- The string literal each member of the `OreUICustomizerType` union denotes
in the source. -/
def OreUICustomizerType.toJs : OreUICustomizerType → String
  | .Website => "Website"
  | .App => "App"
  | .CLI => "CLI"

/-- The external `OreUICustomizerSettings` type is imported from another
package; it is modelled abstractly as key-value pairs. -/
def OreUICustomizerSettings : Type :=
  List (String × String)

/-- Embedding of the `OreUICustomizerEnv` interface from the source:
a read-only `version` string, a `type` drawn from the closed
`OreUICustomizerType` union, and the current `settings`. -/
structure OreUICustomizerEnv where
  version : String
  type : OreUICustomizerType
  settings : OreUICustomizerSettings

/-- Modelled from the spec: the two error classes of the error-handling
design, NotFound and UnsupportedOperation.  The host application raising
them is not part of this repository. -/
inductive PluginError where
  | NotFound
  | UnsupportedOperation
deriving DecidableEq

/-- Modelled from the spec: an archive entry is either a file entry or a
directory entry (the external zip library is not part of this repository). -/
inductive ZipEntryKind where
  | file
  | directory
deriving DecidableEq

/-- Modelled from the spec: an entry of the plugin's backing archive; file
entries carry their raw byte contents. -/
structure ZipEntry where
  kind : ZipEntryKind
  data : List Nat
deriving DecidableEq

/-- Modelled from the spec: the zip filesystem backing a multi-file plugin,
mapping slash-separated relative paths to archive entries. -/
structure ZipFS where
  entries : List (String × ZipEntry)
deriving DecidableEq

/-- Lookup of the entry at a path in the archive; a path resolves to at most
one entry. -/
def ZipFS.findEntry (fs : ZipFS) (path : String) : Option ZipEntry :=
  fs.entries.lookup path

/-- Lookup restricted to file entries: absent when the path is absent or
resolves to a directory entry. -/
def ZipFS.findFileEntry (fs : ZipFS) (path : String) : Option ZipEntry :=
  match fs.findEntry path with
  | some e => if e.kind = ZipEntryKind.file then some e else none
  | none => none

/-- Lookup restricted to directory entries: absent when the path is absent
or resolves to a file entry. -/
def ZipFS.findDirectoryEntry (fs : ZipFS) (path : String) : Option ZipEntry :=
  match fs.findEntry path with
  | some e => if e.kind = ZipEntryKind.directory then some e else none
  | none => none

mutual

/-- Modelled from the spec: a JSON-like manifest value (the exact manifest
shape is an external contract).  Objects carry a frozen flag so that
runtime deep-immutability enforcement can be expressed. -/
inductive JValue where
  | prim (s : String)
  | obj (frozen : Bool) (fields : JFields)

/-- Field list of a JSON-like object value. -/
inductive JFields where
  | fnil
  | fcons (key : String) (val : JValue) (rest : JFields)

end

mutual

/-- Modelled from the spec: recursive freezing realizing the deeply
immutable manifest contract. -/
def deepFreeze : JValue → JValue
  | .prim s => .prim s
  | .obj _ fields => .obj true (deepFreezeFields fields)

/-- Recursive freezing of every field value of an object. -/
def deepFreezeFields : JFields → JFields
  | .fnil => .fnil
  | .fcons key v rest => .fcons key (deepFreeze v) (deepFreezeFields rest)

end

/-- Replaces the value at a key in a field list, appending the binding when
the key is absent. -/
def setField : JFields → String → JValue → JFields
  | .fnil, k, x => .fcons k x .fnil
  | .fcons key v rest, k, x =>
    if key = k then .fcons key x rest else .fcons key v (setField rest k x)

mutual

/-- Modelled from the spec: an attempted write of value `x` at a field path
inside a manifest value.  Writing a property of a frozen object has no
effect; writing a property of an unfrozen object updates it. -/
def writeAt : JValue → List String → JValue → JValue
  | .prim s, _, _ => .prim s
  | .obj frozen fields, [], _ => .obj frozen fields
  | .obj frozen fields, [k], x =>
    if frozen then .obj frozen fields else .obj frozen (setField fields k x)
  | .obj frozen fields, k :: k2 :: rest, x =>
    .obj frozen (writeFields fields k (k2 :: rest) x)

/-- Descends into the value bound to key `k` to perform a nested write;
absent keys leave the field list unchanged. -/
def writeFields : JFields → String → List String → JValue → JFields
  | .fnil, _, _, _ => .fnil
  | .fcons key v rest, k, path, x =>
    if key = k then .fcons key (writeAt v path x) rest
    else .fcons key v (writeFields rest k path x)

end

/-- Lookup of the value bound to a key in a field list. -/
def findField : JFields → String → Option JValue
  | .fnil, _ => none
  | .fcons key v rest, k => if key = k then some v else findField rest k

/-- Reads the value at a field path inside a manifest value. -/
def readAt : JValue → List String → Option JValue
  | v, [] => some v
  | .prim _, _ :: _ => none
  | .obj _ fields, k :: rest =>
    match findField fields k with
    | some child => readAt child rest
    | none => none

/-- The Unicode replacement character emitted for invalid byte sequences
under standard UTF-8 decoding. -/
def replacementChar : Char :=
  Char.ofNat 0xFFFD

/-- Turns a decoded code point into a character, substituting the
replacement character for values that are not Unicode scalar values. -/
def decodeScalar (cp : Nat) : Char :=
  if cp < 0xD800 ∨ (0xDFFF < cp ∧ cp < 0x110000) then Char.ofNat cp else replacementChar

/-- Standard UTF-8 decoding of a byte sequence into characters, emitting
the replacement character for malformed sequences. -/
def utf8DecodeChars : List Nat → List Char
  | [] => []
  | b0 :: rest =>
    if b0 < 0x80 then
      Char.ofNat b0 :: utf8DecodeChars rest
    else if 0xC2 ≤ b0 ∧ b0 ≤ 0xDF then
      match rest with
      | b1 :: rest2 =>
        if 0x80 ≤ b1 ∧ b1 ≤ 0xBF then
          decodeScalar ((b0 % 0x20) * 0x40 + b1 % 0x40) :: utf8DecodeChars rest2
        else replacementChar :: utf8DecodeChars rest2
      | [] => [replacementChar]
    else if 0xE0 ≤ b0 ∧ b0 ≤ 0xEF then
      match rest with
      | b1 :: b2 :: rest3 =>
        if (0x80 ≤ b1 ∧ b1 ≤ 0xBF) ∧ (0x80 ≤ b2 ∧ b2 ≤ 0xBF) then
          let cp : Nat := (b0 % 0x10) * 0x1000 + (b1 % 0x40) * 0x40 + b2 % 0x40
          (if 0x800 ≤ cp then decodeScalar cp else replacementChar) :: utf8DecodeChars rest3
        else replacementChar :: utf8DecodeChars rest3
      | _ => [replacementChar]
    else if 0xF0 ≤ b0 ∧ b0 ≤ 0xF4 then
      match rest with
      | b1 :: b2 :: b3 :: rest4 =>
        if (0x80 ≤ b1 ∧ b1 ≤ 0xBF) ∧ (0x80 ≤ b2 ∧ b2 ≤ 0xBF) ∧ (0x80 ≤ b3 ∧ b3 ≤ 0xBF) then
          let cp : Nat := (b0 % 0x8) * 0x40000 + (b1 % 0x40) * 0x1000 + (b2 % 0x40) * 0x40 + b3 % 0x40
          (if 0x10000 ≤ cp ∧ cp ≤ 0x10FFFF then decodeScalar cp else replacementChar) :: utf8DecodeChars rest4
        else replacementChar :: utf8DecodeChars rest4
      | _ => [replacementChar]
    else replacementChar :: utf8DecodeChars rest

/-- Standard UTF-8 decoding of a byte sequence into a string. -/
def utf8Decode (bytes : List Nat) : String :=
  String.mk (utf8DecodeChars bytes)

/-- Modelled from the spec: the per-plugin-invocation environment facade.
The host-side implementation behind the `OreUICustomizerPluginEnv`
interface is not part of this repository; a plugin either has a backing
archive (multi-file plugin) or none (single-file plugin), plus underlying
manifest data. -/
structure OreUICustomizerPluginEnv where
  archive : Option ZipFS
  manifestData : JValue

namespace OreUICustomizerPluginEnv

/-- Modelled from the spec: `fetchFileContents` returns the raw bytes of
the file at the path, fails with NotFound when the path does not resolve to
a file entry, and with UnsupportedOperation for single-file plugins. -/
def fetchFileContents (env : OreUICustomizerPluginEnv) (path : String) : Except PluginError (List Nat) :=
  match env.archive with
  | none => .error .UnsupportedOperation
  | some fs =>
    match fs.findFileEntry path with
    | some e => .ok e.data
    | none => .error .NotFound

/-- Modelled from the spec: `fetchFileStringContents` returns the file
contents decoded as UTF-8 text, with the same failure modes as
`fetchFileContents`. -/
def fetchFileStringContents (env : OreUICustomizerPluginEnv) (path : String) : Except PluginError String :=
  match env.archive with
  | none => .error .UnsupportedOperation
  | some fs =>
    match fs.findFileEntry path with
    | some e => .ok (utf8Decode e.data)
    | none => .error .NotFound

/-- Modelled from the spec: an opaque binary handle over the same data as
`fetchFileContents`. -/
structure Blob where
  bytes : List Nat
deriving DecidableEq

/-- Modelled from the spec: `fetchFileAsBlob` exposes the file contents as
a blob-like handle, with the same failure modes as `fetchFileContents`. -/
def fetchFileAsBlob (env : OreUICustomizerPluginEnv) (path : String) : Except PluginError Blob :=
  match env.archive with
  | none => .error .UnsupportedOperation
  | some fs =>
    match fs.findFileEntry path with
    | some e => .ok ⟨e.data⟩
    | none => .error .NotFound

/-- Modelled from the spec: a sink handle over a resolved archive file,
remembering the target path and its current contents. -/
structure WritableStreamHandle where
  target : String
  current : List Nat
deriving DecidableEq

/-- Modelled from the spec: `fetchFileAsWritableStream` returns a sink for
the file at the path; its target resolution fails with NotFound for paths
not resolving to a file entry, and with UnsupportedOperation for
single-file plugins. -/
def fetchFileAsWritableStream (env : OreUICustomizerPluginEnv) (path : String) : Except PluginError WritableStreamHandle :=
  match env.archive with
  | none => .error .UnsupportedOperation
  | some fs =>
    match fs.findFileEntry path with
    | some e => .ok ⟨path, e.data⟩
    | none => .error .NotFound

/-- Modelled from the spec: `findZipEntry` is a lookup that may resolve to
a file or a directory and communicates absence by an absent result, never
by an error. -/
def findZipEntry (env : OreUICustomizerPluginEnv) (path : String) : Except PluginError (Option ZipEntry) :=
  match env.archive with
  | none => .ok none
  | some fs => .ok (fs.findEntry path)

/-- Modelled from the spec: `findZipFileEntry` is the file-restricted
lookup; absence (including a path resolving to a directory) is an absent
result, never an error. -/
def findZipFileEntry (env : OreUICustomizerPluginEnv) (path : String) : Except PluginError (Option ZipEntry) :=
  match env.archive with
  | none => .ok none
  | some fs => .ok (fs.findFileEntry path)

/-- Modelled from the spec: `findZipDirectoryEntry` is the
directory-restricted lookup; absence is an absent result, never an
error. -/
def findZipDirectoryEntry (env : OreUICustomizerPluginEnv) (path : String) : Except PluginError (Option ZipEntry) :=
  match env.archive with
  | none => .ok none
  | some fs => .ok (fs.findDirectoryEntry path)

/-- Modelled from the spec: access to the read-only `zipFs` property, the
zip filesystem storing the plugin's contents; unavailable for single-file
plugins. -/
def zipFs (env : OreUICustomizerPluginEnv) : Except PluginError ZipFS :=
  match env.archive with
  | none => .error .UnsupportedOperation
  | some fs => .ok fs

/-- Modelled from the spec: access to the read-only, deeply immutable
`manifest` property; unavailable for single-file plugins. -/
def manifest (env : OreUICustomizerPluginEnv) : Except PluginError JValue :=
  match env.archive with
  | none => .error .UnsupportedOperation
  | some _ => .ok (deepFreeze env.manifestData)

end OreUICustomizerPluginEnv

/-- Kind of a member of a TypeScript interface declaration. -/
inductive MemberKind where
  | method
  | property
deriving DecidableEq

/-- A member of a TypeScript interface declaration: its name, kind, and
whether it carries the readonly modifier. -/
structure InterfaceMember where
  name : String
  kind : MemberKind
  isReadonly : Bool
deriving DecidableEq

/-- The member list of the `OreUICustomizerPluginEnv` interface exactly as
declared in the source: seven methods and two readonly properties. -/
def pluginEnvMembers : List InterfaceMember :=
  [⟨"fetchFileContents", .method, false⟩,
   ⟨"fetchFileStringContents", .method, false⟩,
   ⟨"fetchFileAsBlob", .method, false⟩,
   ⟨"fetchFileAsWritableStream", .method, false⟩,
   ⟨"findZipEntry", .method, false⟩,
   ⟨"findZipFileEntry", .method, false⟩,
   ⟨"findZipDirectoryEntry", .method, false⟩,
   ⟨"zipFs", .property, true⟩,
   ⟨"manifest", .property, true⟩]

/-- Whether a lookup result is a present entry. -/
def presentEntry (r : Except PluginError (Option ZipEntry)) : Prop :=
  ∃ e, r = Except.ok (some e)

/-- A concrete archive with one directory entry and one file entry, used to
instantiate the environment theorems. -/
def sampleFS : ZipFS :=
  ⟨[("dir", ⟨ZipEntryKind.directory, []⟩), ("f.txt", ⟨ZipEntryKind.file, [104, 105]⟩)]⟩

/-- A concrete manifest value with one unfrozen object layer. -/
def sampleManifest : JValue :=
  JValue.obj false (JFields.fcons "name" (JValue.prim "p") JFields.fnil)

/-- A concrete multi-file plugin environment. -/
def sampleEnv : OreUICustomizerPluginEnv :=
  ⟨some sampleFS, sampleManifest⟩

/-- A concrete single-file plugin environment. -/
def sampleSingleFileEnv : OreUICustomizerPluginEnv :=
  ⟨none, sampleManifest⟩

theorem Join_SplitChars (l : List Char) : Join (SplitChars l) = String.mk l := by
  induction l with
  | nil => rfl
  | cons c r ih =>
    show String.mk [c] ++ Join (SplitChars r) = String.mk (c :: r)
    rw [ih]
    rfl

/-- Claim C8: for every string S, the type-level utilities Split and Join
form a round trip: Join of Split of S equals S, where Split S is the tuple
of the single characters of S in order and Join concatenates a tuple of
strings in order. -/
theorem Join_Split_roundTrip (s : String) : Join (Split s) = s := by
  cases s with
  | mk l => exact Join_SplitChars l

/-- Claim C9: for every tuple T, including non-empty ones,
RemoveFirstNElements T 0 evaluates to the empty tuple rather than to T:
with N = 0 the accumulator length check succeeds immediately and the
default empty Result is returned. -/
theorem RemoveFirstNElements_zero_empty (α : Type) (T : List α) :
    RemoveFirstNElements T 0 = [] := by
  rw [RemoveFirstNElements.eq_def]
  simp

/-- Claim C10 evaluated at the failing input: the code's
RemoveLastNElements on the tuple with elements one to four with N two
yields the middle two elements, not the tuple without its last two
elements, because the recursive branch invokes RemoveFirstNElements
instead of recursing on itself. -/
theorem RemoveLastNElements_two_diverges :
    RemoveLastNElements ([1, 2, 3, 4] : List Nat) 2 = [2, 3] ∧
    RemoveLastNElements ([1, 2, 3, 4] : List Nat) 2 ≠ [1, 2] := by
  decide

/-- Claim C5: the type of the customizer environment is drawn from a closed
enumeration with exactly the three members Website, App and CLI: every
environment's type denotes one of the three strings, exactly those three
strings are denoted by members, and the three members are distinct. -/
theorem OreUICustomizerType_closed :
    (∀ env : OreUICustomizerEnv,
      env.type.toJs = "Website" ∨ env.type.toJs = "App" ∨ env.type.toJs = "CLI") ∧
    (∀ s : String,
      (∃ t : OreUICustomizerType, t.toJs = s) ↔ (s = "Website" ∨ s = "App" ∨ s = "CLI")) ∧
    (OreUICustomizerType.Website ≠ OreUICustomizerType.App ∧
      OreUICustomizerType.Website ≠ OreUICustomizerType.CLI ∧
      OreUICustomizerType.App ≠ OreUICustomizerType.CLI) := by
  refine ⟨?_, ?_, by decide⟩
  · intro env
    cases h : env.type <;> simp [OreUICustomizerType.toJs, h]
  · intro s
    constructor
    · rintro ⟨t, rfl⟩
      cases t <;> simp [OreUICustomizerType.toJs]
    · rintro (rfl | rfl | rfl)
      exacts [⟨.Website, rfl⟩, ⟨.App, rfl⟩, ⟨.CLI, rfl⟩]

/-- Claim C1: every archive-backed operation invoked against a single-file
plugin (one with no backing archive) fails with UnsupportedOperation —
never with NotFound and never by silently returning empty data. -/
theorem singleFile_archiveOps_unsupported (env : OreUICustomizerPluginEnv)
    (h : env.archive = none) (path : String) :
    env.fetchFileContents path = Except.error PluginError.UnsupportedOperation ∧
    env.fetchFileStringContents path = Except.error PluginError.UnsupportedOperation ∧
    env.fetchFileAsBlob path = Except.error PluginError.UnsupportedOperation ∧
    env.fetchFileAsWritableStream path = Except.error PluginError.UnsupportedOperation ∧
    env.zipFs = Except.error PluginError.UnsupportedOperation ∧
    env.manifest = Except.error PluginError.UnsupportedOperation := by
  simp [OreUICustomizerPluginEnv.fetchFileContents,
    OreUICustomizerPluginEnv.fetchFileStringContents,
    OreUICustomizerPluginEnv.fetchFileAsBlob,
    OreUICustomizerPluginEnv.fetchFileAsWritableStream,
    OreUICustomizerPluginEnv.zipFs, OreUICustomizerPluginEnv.manifest, h]

/-- Witness for claim C1 at a concrete single-file plugin environment. -/
theorem singleFile_archiveOps_unsupported_witness :
    sampleSingleFileEnv.archive = none ∧
    (sampleSingleFileEnv.fetchFileContents "f.txt" = Except.error PluginError.UnsupportedOperation ∧
      sampleSingleFileEnv.fetchFileStringContents "f.txt" = Except.error PluginError.UnsupportedOperation ∧
      sampleSingleFileEnv.fetchFileAsBlob "f.txt" = Except.error PluginError.UnsupportedOperation ∧
      sampleSingleFileEnv.fetchFileAsWritableStream "f.txt" = Except.error PluginError.UnsupportedOperation ∧
      sampleSingleFileEnv.zipFs = Except.error PluginError.UnsupportedOperation ∧
      sampleSingleFileEnv.manifest = Except.error PluginError.UnsupportedOperation) :=
  ⟨rfl, singleFile_archiveOps_unsupported sampleSingleFileEnv rfl "f.txt"⟩

/-- Claim C2: for every path, the general lookup is present exactly when
one of the file-restricted or directory-restricted lookups is present, the
two restricted lookups are mutually exclusive, and none of the three
lookups ever yields an error. -/
theorem findZipEntry_partition (env : OreUICustomizerPluginEnv) (p : String) :
    (∃ o, env.findZipEntry p = Except.ok o) ∧
    (∃ o, env.findZipFileEntry p = Except.ok o) ∧
    (∃ o, env.findZipDirectoryEntry p = Except.ok o) ∧
    (presentEntry (env.findZipEntry p) ↔
      (presentEntry (env.findZipFileEntry p) ∨ presentEntry (env.findZipDirectoryEntry p))) ∧
    ¬(presentEntry (env.findZipFileEntry p) ∧ presentEntry (env.findZipDirectoryEntry p)) := by
  cases harch : env.archive with
  | none =>
    simp [OreUICustomizerPluginEnv.findZipEntry, OreUICustomizerPluginEnv.findZipFileEntry,
      OreUICustomizerPluginEnv.findZipDirectoryEntry, presentEntry, harch]
  | some fs =>
    cases hent : fs.findEntry p with
    | none =>
      simp [OreUICustomizerPluginEnv.findZipEntry, OreUICustomizerPluginEnv.findZipFileEntry,
        OreUICustomizerPluginEnv.findZipDirectoryEntry, ZipFS.findFileEntry,
        ZipFS.findDirectoryEntry, presentEntry, harch, hent]
    | some e =>
      cases hkind : e.kind <;>
        simp [OreUICustomizerPluginEnv.findZipEntry, OreUICustomizerPluginEnv.findZipFileEntry,
          OreUICustomizerPluginEnv.findZipDirectoryEntry, ZipFS.findFileEntry,
          ZipFS.findDirectoryEntry, presentEntry, harch, hent, hkind]

/-- Claim C3: in a multi-file plugin, every path that does not resolve to a
file entry in the archive makes each of the four fetch operations fail with
NotFound rather than succeed with empty data or an absent sentinel. -/
theorem fetch_missing_notFound (env : OreUICustomizerPluginEnv) (fs : ZipFS) (p : String)
    (ha : env.archive = some fs) (hf : fs.findFileEntry p = none) :
    env.fetchFileContents p = Except.error PluginError.NotFound ∧
    env.fetchFileStringContents p = Except.error PluginError.NotFound ∧
    env.fetchFileAsBlob p = Except.error PluginError.NotFound ∧
    env.fetchFileAsWritableStream p = Except.error PluginError.NotFound := by
  simp [OreUICustomizerPluginEnv.fetchFileContents,
    OreUICustomizerPluginEnv.fetchFileStringContents,
    OreUICustomizerPluginEnv.fetchFileAsBlob,
    OreUICustomizerPluginEnv.fetchFileAsWritableStream, ha, hf]

/-- Witness for claim C3 at a concrete archive, with a path resolving to a
directory entry rather than a file entry. -/
theorem fetch_missing_notFound_witness :
    sampleEnv.archive = some sampleFS ∧
    sampleFS.findFileEntry "dir" = none ∧
    (sampleEnv.fetchFileContents "dir" = Except.error PluginError.NotFound ∧
      sampleEnv.fetchFileStringContents "dir" = Except.error PluginError.NotFound ∧
      sampleEnv.fetchFileAsBlob "dir" = Except.error PluginError.NotFound ∧
      sampleEnv.fetchFileAsWritableStream "dir" = Except.error PluginError.NotFound) :=
  ⟨rfl, rfl, fetch_missing_notFound sampleEnv sampleFS "dir" rfl rfl⟩

/-- Claim C4: whenever fetching the bytes of a path succeeds, fetching the
string contents of the same path yields exactly the UTF-8 decoding of those
bytes. -/
theorem fetchString_utf8_of_fetchBytes (env : OreUICustomizerPluginEnv) (p : String)
    (bytes : List Nat) (h : env.fetchFileContents p = Except.ok bytes) :
    env.fetchFileStringContents p = Except.ok (utf8Decode bytes) := by
  cases harch : env.archive with
  | none => simp [OreUICustomizerPluginEnv.fetchFileContents, harch] at h
  | some fs =>
    cases hf : fs.findFileEntry p with
    | none => simp [OreUICustomizerPluginEnv.fetchFileContents, harch, hf] at h
    | some e =>
      have hb : e.data = bytes := by
        simpa [OreUICustomizerPluginEnv.fetchFileContents, harch, hf] using h
      simp [OreUICustomizerPluginEnv.fetchFileStringContents, harch, hf, hb]

/-- Witness for claim C4 at a concrete archive file whose bytes decode to a
two-character string. -/
theorem fetchString_utf8_of_fetchBytes_witness :
    sampleEnv.fetchFileContents "f.txt" = Except.ok [104, 105] ∧
    sampleEnv.fetchFileStringContents "f.txt" = Except.ok (utf8Decode [104, 105]) :=
  ⟨rfl, fetchString_utf8_of_fetchBytes sampleEnv "f.txt" [104, 105] rfl⟩

mutual

theorem writeAt_deepFreeze (v : JValue) (path : List String) (x : JValue) :
    writeAt (deepFreeze v) path x = deepFreeze v := by
  cases v with
  | prim s => cases path <;> simp [deepFreeze, writeAt]
  | obj frozen fields =>
    cases path with
    | nil => simp [deepFreeze, writeAt]
    | cons k rest =>
      cases rest with
      | nil => simp [deepFreeze, writeAt]
      | cons k2 r2 =>
        simp only [deepFreeze, writeAt]
        rw [writeFields_deepFreeze fields k (k2 :: r2) x]

theorem writeFields_deepFreeze (f : JFields) (k : String) (path : List String) (x : JValue) :
    writeFields (deepFreezeFields f) k path x = deepFreezeFields f := by
  cases f with
  | fnil => simp [deepFreezeFields, writeFields]
  | fcons key v rest =>
    simp only [deepFreezeFields, writeFields]
    by_cases h : key = k
    · simp [h, writeAt_deepFreeze v path x]
    · simp [h, writeFields_deepFreeze rest k path x]

end

/-- Claim C6: the manifest exposed by a plugin environment is deeply
immutable at runtime: an attempted write at any field path, at any depth,
has no effect on any subsequent read of the manifest. -/
theorem manifest_deeply_immutable (env : OreUICustomizerPluginEnv) (m : JValue)
    (h : env.manifest = Except.ok m) (wpath : List String) (x : JValue) (rpath : List String) :
    readAt (writeAt m wpath x) rpath = readAt m rpath := by
  have hm : m = deepFreeze env.manifestData := by
    cases harch : env.archive with
    | none => simp [OreUICustomizerPluginEnv.manifest, harch] at h
    | some fs =>
      have := h
      simp [OreUICustomizerPluginEnv.manifest, harch] at this
      exact this.symm
  rw [hm, writeAt_deepFreeze]

/-- Witness for claim C6 at a concrete plugin environment: an attempted
overwrite of the manifest's name field does not change what is read back. -/
theorem manifest_deeply_immutable_witness :
    sampleEnv.manifest = Except.ok (deepFreeze sampleManifest) ∧
    readAt (writeAt (deepFreeze sampleManifest) ["name"] (JValue.prim "evil")) ["name"] =
      readAt (deepFreeze sampleManifest) ["name"] :=
  ⟨rfl, manifest_deeply_immutable sampleEnv (deepFreeze sampleManifest) rfl
    ["name"] (JValue.prim "evil") ["name"]⟩

/-- Claim C7 as stated is false on the code: the interface declared in the
source has no member named archiveRoot; the archive is exposed through the
member named zipFs. -/
theorem archiveRoot_not_a_member :
    (¬ ∃ m ∈ pluginEnvMembers, m.name = "archiveRoot") ∧
    (∃ m ∈ pluginEnvMembers, m.name = "zipFs") := by
  decide

/-- Claim C7 as amended: the plugin environment facade exposes a read-only
property named zipFs holding the plugin's backing zip filesystem, enabling
manual traversal beyond the path-based helper operations. -/
theorem zipFs_readonly_member (env : OreUICustomizerPluginEnv) (fs : ZipFS)
    (h : env.archive = some fs) :
    (⟨"zipFs", MemberKind.property, true⟩ : InterfaceMember) ∈ pluginEnvMembers ∧
    env.zipFs = Except.ok fs :=
  ⟨by decide, by simp [OreUICustomizerPluginEnv.zipFs, h]⟩

/-- Witness for the amended claim C7 at a concrete multi-file plugin
environment. -/
theorem zipFs_readonly_member_witness :
    sampleEnv.archive = some sampleFS ∧
    ((⟨"zipFs", MemberKind.property, true⟩ : InterfaceMember) ∈ pluginEnvMembers ∧
      sampleEnv.zipFs = Except.ok sampleFS) :=
  ⟨rfl, zipFs_readonly_member sampleEnv sampleFS rfl⟩
